import Mathlib

/-!
Shallow embedding of the content-management hub (`src/ContentHub.tsx`):
the project workflow state machine, the file version resolver, and the
orchestration handlers whose state effects the specification describes.
External collaborators (the relational store and the object store) are
modelled as explicit lists of records threaded through the handlers, with
Boolean parameters standing for the success or failure of each remote call.
-/

namespace ContentHub

/-- The six project workflow states (`type ProjectStatus` in the source). -/
inductive ProjectStatus where
  | draft
  | editor_review
  | client_review
  | needs_revision
  | approved
  | final_delivered
deriving DecidableEq

/-- `type ContentType = 'video' | 'image' | 'text'`. -/
inductive ContentType where
  | video
  | image
  | text
deriving DecidableEq

/-- Project priority union type. -/
inductive Priority where
  | low
  | medium
  | high
  | urgent
deriving DecidableEq

/-- `interface ProjectFile` from the source: one uploaded artifact attached
to a project.  `previousVersionId` is optional in the interface. -/
structure ProjectFile where
  id : String
  name : String
  size : Nat
  type : String
  uploadDate : String
  url : String
  s3Key : String
  version : String
  uploadedBy : String
  isLatest : Bool
  previousVersionId : Option String
deriving DecidableEq

/-- `interface Project` from the source (optional fields as `Option`). -/
structure Project where
  id : Nat
  client : String
  title : String
  type : ContentType
  subtype : Option String
  status : ProjectStatus
  priority : Priority
  version : Nat
  dueDate : String
  estimatedHours : Option Nat
  budget : Option Nat
  description : String
  objectives : Option String
  targetAudience : Option String
  platforms : List String
  deliverables : Option String
  feedback : Option String
  lastActivity : String
  tags : List String
  files : List ProjectFile
deriving DecidableEq

/-- A persisted `project_files` row in the relational store.  `id` is the
store-assigned numeric key. -/
structure DbFileRecord where
  id : Nat
  projectId : Nat
  name : String
  size : Nat
  type : String
  s3Key : String
  url : String
  uploadDate : String
  version : String
  uploadedBy : String
  isLatest : Bool
  previousVersionId : Option String
deriving DecidableEq

/-- Post status union (`'draft' | 'scheduled' | 'posted'`). -/
inductive PostStatus where
  | draft
  | scheduled
  | posted
deriving DecidableEq

/-- The `analytics` map with its named optional numeric fields. -/
structure Analytics where
  views : Option Nat
  shares : Option Nat
  saves : Option Nat
  reach : Option Nat
deriving DecidableEq

/-- `interface PostedContent` from the source. -/
structure PostedContent where
  id : Nat
  projectId : Nat
  projectTitle : String
  client : String
  contentForm : String
  contentBucket : String
  numberOfContent : Nat
  link : String
  caption : String
  feedback : String
  comments : String
  numberOfLikes : Nat
  liveLink : String
  platform : String
  scheduledDate : String
  postedDate : String
  status : PostStatus
  analytics : Analytics
deriving DecidableEq

/-- The new-project form state (`newProject` in the source); every field is
a concrete value, with absence of text encoded as the empty string exactly
as in the React form state. -/
structure NewProjectForm where
  client : String
  title : String
  type : ContentType
  subtype : String
  priority : Priority
  dueDate : String
  estimatedHours : Nat
  budget : Nat
  description : String
  objectives : String
  targetAudience : String
  platforms : List String
  deliverables : String
  tags : List String
deriving DecidableEq

/-! ## Workflow engine -/

/-- `getNextWorkflowStatus` from the source: the fixed advance table. -/
def getNextWorkflowStatus : ProjectStatus → ProjectStatus
  | .draft => .editor_review
  | .editor_review => .client_review
  | .client_review => .approved
  | .needs_revision => .editor_review
  | .approved => .final_delivered
  | .final_delivered => .final_delivered

/-- `updateProjectStatus` from the source: the relational-store write is
issued first; only when it succeeds (`dbOk = true`) are the `projects` list
and the `selectedProject` copy mutated.  On failure the catch branch only
logs and alerts, mutating nothing. -/
def updateProjectStatus (dbOk : Bool) (projects : List Project)
    (selectedProject : Option Project) (projectId : Nat)
    (status : ProjectStatus) : List Project × Option Project :=
  if dbOk then
    ( projects.map fun p =>
        if p.id = projectId then
          { p with status := status, lastActivity := "Status updated" }
        else p
    , match selectedProject with
      | some sp =>
          if sp.id = projectId then
            some { sp with status := status, lastActivity := "Status updated" }
          else some sp
      | none => none )
  else
    (projects, selectedProject)

/-! ## File version resolver -/

/-- Value of a decimal digit character; any other character fails, the way
`Number(...)` yields `NaN` on it. -/
def digitVal (c : Char) : Option Nat :=
  if c.isDigit then some (c.toNat - Char.toNat '0') else none

/-- `Number(s)` on a non-negative decimal integer string: `some` of its
value when `s` is a non-empty all-digit string, `none` (the model of `NaN`)
otherwise. -/
def parseNatDigits (s : String) : Option Nat :=
  match s.data with
  | [] => none
  | cs =>
      cs.foldl
        (fun acc c =>
          match acc, digitVal c with
          | some n, some d => some (n * 10 + d)
          | _, _ => none)
        (some 0)

/-- `s.split('.')` on the character list of `s`. -/
def splitDotChars : List Char → List (List Char)
  | [] => [[]]
  | c :: cs =>
      let rest := splitDotChars cs
      if c = '.' then [] :: rest
      else
        match rest with
        | r :: rs => (c :: r) :: rs
        | [] => [[c]]

/-- `s.split('.')` as a list of strings. -/
def splitOnDot (s : String) : List String :=
  (splitDotChars s.data).map fun cs => String.mk cs

/-- `const [major, minor] = s.split('.').map(Number)`: the destructuring
takes the first two components (extra components are ignored, a missing
minor component is `undefined`, hence `NaN`).  `none` models the case where
either component is `NaN`. -/
def parseMajorMinor (s : String) : Option (Nat × Nat) :=
  match splitOnDot s with
  | major :: minor :: _ =>
      match parseNatDigits major, parseNatDigits minor with
      | some m1, some m2 => some (m1, m2)
      | _, _ => none
  | _ => none

/-- The sort comparator of `getNextVersion` read as a "comes no later
than" relation: `versionLe a b = true` iff the comparator
`(a, b) => bMajor - aMajor` (minor as tiebreak) is `≤ 0`, i.e. `a` sorts
before or with `b` in the descending order.  When either side fails to
parse, the comparator value is `NaN`, which the sort treats as 0 (ties). -/
def versionLe (a b : String) : Bool :=
  match parseMajorMinor a, parseMajorMinor b with
  | some (aMajor, aMinor), some (bMajor, bMinor) =>
      if aMajor ≠ bMajor then decide (bMajor ≤ aMajor)
      else decide (bMinor ≤ aMinor)
  | _, _ => true

/-- The versions of the files whose name equals `fileName` (the
`filter`/`map` chain at the head of `getNextVersion`). -/
def matchingVersions (files : List ProjectFile) (fileName : String) : List String :=
  (files.filter fun f => decide (f.name = fileName)).map fun f => f.version

/-- `getNextVersion` from the source: sort the matching versions in
descending numeric `(major, minor)` order, return `"1.0"` when there are
none, and otherwise bump the minor component of the greatest one.  The
unreachable-under-well-formed-input branch where the greatest version does
not parse renders the `NaN` components the way the template literal would. -/
def getNextVersion (files : List ProjectFile) (fileName : String) : String :=
  let existingVersions :=
    (matchingVersions files fileName).insertionSort fun a b => versionLe a b = true
  match existingVersions with
  | [] => "1.0"
  | latestVersion :: _ =>
      match parseMajorMinor latestVersion with
      | some (major, minor) => toString major ++ "." ++ toString (minor + 1)
      | none => "NaN.NaN"

/-- `getLatestFileVersion` from the source: the first same-named file whose
`isLatest` flag is set, if any. -/
def getLatestFileVersion (files : List ProjectFile) (fileName : String) :
    Option ProjectFile :=
  (files.filter fun f => decide (f.name = fileName)).find? fun f => f.isLatest

/-! ## Upload orchestration -/

/-- The `newFile : ProjectFile` record built inside `handleFileUpload`:
version from `getNextVersion`, `isLatest` set, `previousVersionId` the id
of the previously latest same-named file (optional chaining on
`getLatestFileVersion(...)?.id`). -/
def mkNewFile (existingFiles : List ProjectFile) (fileId fileName : String)
    (size : Nat) (ftype now url s3Key uploadedBy : String) : ProjectFile :=
  { id := fileId
    name := fileName
    size := size
    type := ftype
    uploadDate := now
    url := url
    s3Key := s3Key
    version := getNextVersion existingFiles fileName
    uploadedBy := uploadedBy
    isLatest := true
    previousVersionId := (getLatestFileVersion existingFiles fileName).map fun f => f.id }

/-- `saveFileToSupabase` from the source: a single insert into
`project_files`; the store assigns `assignedId` and the row carries the
values of the in-memory file record.  No existing row is updated. -/
def saveFileToSupabase (db : List DbFileRecord) (assignedId : Nat)
    (projectId : Nat) (now : String) (file : ProjectFile) : List DbFileRecord :=
  db ++ [{ id := assignedId
           projectId := projectId
           name := file.name
           size := file.size
           type := file.type
           s3Key := file.s3Key
           url := file.url
           uploadDate := now
           version := file.version
           uploadedBy := file.uploadedBy
           isLatest := file.isLatest
           previousVersionId := file.previousVersionId }]

/-- The `setProjects` updater of `handleFileUpload`: in the project being
uploaded to, every existing file with the name of some new file has its
`isLatest` flag cleared, then the new files are appended; other projects
are untouched. -/
def applyUploadState (projects : List Project) (projectId : Nat)
    (newFiles : List ProjectFile) : List Project :=
  projects.map fun project =>
    if project.id = projectId then
      { project with
        files :=
          (project.files.map fun f =>
            if newFiles.any fun nf => decide (nf.name = f.name) then
              { f with isLatest := false }
            else f)
          ++ newFiles
        lastActivity :=
          match newFiles with
          | [nf] => nf.name ++ " v" ++ nf.version ++ " uploaded"
          | _ => toString newFiles.length ++ " files uploaded" }
    else project

/-- The `setSelectedProject` updater of `handleFileUpload`: the new files
are appended to the copy without clearing any `isLatest` flag. -/
def applyUploadSelected (selectedProject : Option Project) (projectId : Nat)
    (newFiles : List ProjectFile) : Option Project :=
  match selectedProject with
  | some sp =>
      if sp.id = projectId then
        some { sp with
               files := sp.files ++ newFiles
               lastActivity :=
                 match newFiles with
                 | [_] => toString newFiles.length ++ " file uploaded"
                 | _ => toString newFiles.length ++ " files uploaded" }
      else some sp
  | none => none

/-- `handleFileUpload` for a single dropped file, after the object-store
upload succeeded: build the new file record from the current project's
file list, insert its row into `project_files`, and apply the two local
state updates. -/
def uploadSingleFile (projects : List Project) (selectedProject : Option Project)
    (db : List DbFileRecord) (projectId : Nat) (fileId fileName : String)
    (size : Nat) (ftype now url uploadedBy : String) (assignedDbId : Nat) :
    List Project × Option Project × List DbFileRecord :=
  let s3Key := "projects/" ++ toString projectId ++ "/" ++ fileId ++ "-" ++ fileName
  let existingFiles :=
    match projects.find? fun p => decide (p.id = projectId) with
    | some p => p.files
    | none => []
  let newFile := mkNewFile existingFiles fileId fileName size ftype now url s3Key uploadedBy
  let db' := saveFileToSupabase db assignedDbId projectId now newFile
  ( applyUploadState projects projectId [newFile]
  , applyUploadSelected selectedProject projectId [newFile]
  , db' )

/-! ## Remaining orchestration handlers -/

/-- `saveNewProject` from the source.  The falsy check on the four
mandatory form fields rejects before any store call (first component
`false`); otherwise the insert is attempted (first component `true`) and,
when the store returns the new row (`insertedId = some _`), the project is
appended to the local list with status `draft` and version `1`. -/
def saveNewProject (np : NewProjectForm) (insertedId : Option Nat)
    (projects : List Project) : Bool × List Project :=
  if np.client = "" ∨ np.title = "" ∨ np.dueDate = "" ∨ np.description = "" then
    (false, projects)
  else
    match insertedId with
    | none => (true, projects)
    | some newId =>
        (true, projects ++
          [{ id := newId
             client := np.client
             title := np.title
             type := np.type
             subtype := some np.subtype
             status := .draft
             priority := np.priority
             version := 1
             dueDate := np.dueDate
             estimatedHours := some np.estimatedHours
             budget := some np.budget
             description := np.description
             objectives := some np.objectives
             targetAudience := some np.targetAudience
             platforms := np.platforms
             deliverables := some np.deliverables
             feedback := none
             lastActivity := "Project created"
             tags := np.tags
             files := [] }])

/-- `deletePost` from the source.  After the confirm dialog, the database
delete is attempted inside an inner try whose catch only logs ("If
database delete fails, we'll still remove from local state"); the local
removal then runs unconditionally, so the result does not depend on
`dbOk`. -/
def deletePost (confirmed : Bool) (dbOk : Bool) (posts : List PostedContent)
    (postId : Nat) : List PostedContent :=
  if confirmed then posts.filter fun post => decide (post.id ≠ postId)
  else posts

/-- `deleteFromS3` from the source: the send is wrapped in a try whose
catch only logs, so a failed delete (`s3Ok = false`) leaves the object
store unchanged and no error propagates to the caller. -/
def deleteFromS3 (s3 : List String) (s3Key : String) (s3Ok : Bool) : List String :=
  if s3Ok then s3.filter fun k => decide (k ≠ s3Key) else s3

/-- `deleteFile` from the source: look up the file, delete its backing
object when it has a non-empty `s3Key`, and remove it from the two local
state copies.  No statement touches the `project_files` table, so the
relational store is returned unchanged. -/
def deleteFile (projects : List Project) (selectedProject : Option Project)
    (db : List DbFileRecord) (s3 : List String) (s3Ok : Bool)
    (projectId : Nat) (fileId : String) :
    List Project × Option Project × List DbFileRecord × List String :=
  let project := projects.find? fun p => decide (p.id = projectId)
  let projectFiles : List ProjectFile :=
    match project with
    | some p => p.files
    | none => []
  let fileToDelete := projectFiles.find? fun f => decide (f.id = fileId)
  let s3' :=
    match fileToDelete with
    | some f => if f.s3Key ≠ "" then deleteFromS3 s3 f.s3Key s3Ok else s3
    | none => s3
  let projects' := projects.map fun p =>
    if p.id = projectId then
      { p with
        files := p.files.filter fun f => decide (f.id ≠ fileId)
        lastActivity := "File deleted" }
    else p
  let selected' :=
    match selectedProject with
    | some sp =>
        if sp.id = projectId then
          some { sp with
                 files := sp.files.filter fun f => decide (f.id ≠ fileId)
                 lastActivity := "File deleted" }
        else some sp
    | none => none
  (projects', selected', db, s3')

/-- The row-to-file conversion of `loadFilesForProject`, with the source's
falsy-value fallbacks for `version` and `uploaded_by`. -/
def dbRowToFile (r : DbFileRecord) : ProjectFile :=
  { id := toString r.id
    name := r.name
    size := r.size
    type := r.type
    url := r.url
    s3Key := r.s3Key
    uploadDate := r.uploadDate
    version := if r.version = "" then "1.0" else r.version
    uploadedBy := if r.uploadedBy = "" then "Unknown" else r.uploadedBy
    isLatest := r.isLatest
    previousVersionId := r.previousVersionId }

/-- `loadFilesForProject` from the source: the store returns the
`project_files` rows of the project (the store-side ordering by upload
date does not affect which rows are returned) and each row is converted to
an in-memory file record. -/
def loadFilesForProject (db : List DbFileRecord) (projectId : Nat) :
    List ProjectFile :=
  (db.filter fun r => decide (r.projectId = projectId)).map dbRowToFile

/-! ## Derived observations used to state the invariants -/

/-- Numeric order on parsed `(major, minor)` pairs: major compared first,
minor as tiebreak. -/
def pairLe (p q : Nat × Nat) : Prop :=
  p.1 < q.1 ∨ (p.1 = q.1 ∧ p.2 ≤ q.2)

instance (p q : Nat × Nat) : Decidable (pairLe p q) := by
  unfold pairLe
  infer_instance

/-- How many in-memory files of the given name are flagged latest. -/
def latestFileCount (files : List ProjectFile) (fileName : String) : Nat :=
  files.countP fun f => decide (f.name = fileName ∧ f.isLatest = true)

/-- How many persisted `project_files` rows of the given project and name
are flagged latest. -/
def latestDbCount (db : List DbFileRecord) (projectId : Nat) (fileName : String) : Nat :=
  db.countP fun r => decide (r.projectId = projectId ∧ r.name = fileName ∧ r.isLatest = true)

/-! ## Concrete fixtures used by witnesses and counterexamples -/

/-- A file named `a.mp4` at version `1.0`, flagged latest. -/
def exFile10 : ProjectFile :=
  { id := "x", name := "a.mp4", size := 5, type := "video/mp4", uploadDate := "Mon"
    url := "u1", s3Key := "k1", version := "1.0", uploadedBy := "kd"
    isLatest := true, previousVersionId := none }

/-- A superseded `a.mp4` at version `1.9`. -/
def exFile19 : ProjectFile := { exFile10 with id := "y", version := "1.9", isLatest := false }

/-- The latest `a.mp4` at version `2.0`. -/
def exFile20 : ProjectFile := { exFile10 with id := "z", version := "2.0" }

/-- A file with an unrelated name. -/
def exFileOther : ProjectFile := { exFile10 with id := "w", name := "b.png", s3Key := "k2" }

/-- A project with id 1 holding `a.mp4` and `b.png`. -/
def exProjA : Project :=
  { id := 1, client := "Acme", title := "Launch video", type := .video, subtype := none
    status := .draft, priority := .medium, version := 1, dueDate := "2025-01-31"
    estimatedHours := none, budget := none, description := "desc", objectives := none
    targetAudience := none, platforms := [], deliverables := none, feedback := none
    lastActivity := "Project created", tags := [], files := [exFile10, exFileOther] }

/-- A second, unrelated project with id 2. -/
def exProjB : Project := { exProjA with id := 2, title := "Other", files := [exFile10] }

/-- The persisted `project_files` row of `exFile10` in project 1. -/
def exRec1 : DbFileRecord :=
  { id := 1, projectId := 1, name := "a.mp4", size := 5, type := "video/mp4"
    s3Key := "k1", url := "u1", uploadDate := "Mon", version := "1.0"
    uploadedBy := "kd", isLatest := true, previousVersionId := none }

/-- A posted-content record with id 1. -/
def exPost1 : PostedContent :=
  { id := 1, projectId := 1, projectTitle := "Launch video", client := "Acme"
    contentForm := "reel", contentBucket := "edu", numberOfContent := 1, link := ""
    caption := "", feedback := "", comments := "", numberOfLikes := 0, liveLink := ""
    platform := "IG", scheduledDate := "", postedDate := "", status := .draft
    analytics := { views := none, shares := none, saves := none, reach := none } }

/-- A second posted-content record with id 2. -/
def exPost2 : PostedContent := { exPost1 with id := 2 }

/-- A fully filled new-project form. -/
def exForm : NewProjectForm :=
  { client := "Acme", title := "Launch video", type := .video, subtype := ""
    priority := .medium, dueDate := "2025-02-01", estimatedHours := 0, budget := 0
    description := "desc", objectives := "", targetAudience := "", platforms := []
    deliverables := "", tags := [] }

/-- The form with the mandatory title cleared. -/
def exFormNoTitle : NewProjectForm := { exForm with title := "" }

/-- A concrete single-file upload of `a.mp4` into project 1, whose file
list already holds an `a.mp4` at version `1.0` flagged latest, with the
matching row already persisted. -/
def exUpload : List Project × Option Project × List DbFileRecord :=
  uploadSingleFile [exProjA, exProjB] none [exRec1] 1 "fid" "a.mp4" 7 "video/mp4"
    "Tue" "u2" "kd" 2

/-! ## C2: the advance table -/

/-- C2: `getNextWorkflowStatus` is a total deterministic function over the
six states given exactly by the table draft→editor_review,
editor_review→client_review, client_review→approved,
needs_revision→editor_review, approved→final_delivered,
final_delivered→final_delivered; advancing the terminal state is a no-op,
not an error. -/
theorem getNextWorkflowStatus_table :
    getNextWorkflowStatus .draft = .editor_review ∧
    getNextWorkflowStatus .editor_review = .client_review ∧
    getNextWorkflowStatus .client_review = .approved ∧
    getNextWorkflowStatus .needs_revision = .editor_review ∧
    getNextWorkflowStatus .approved = .final_delivered ∧
    getNextWorkflowStatus .final_delivered = .final_delivered := by
  decide

/-! ## C5: status persistence failure mutates nothing -/

/-- C5: when persisting a project's new status to the external store fails,
the in-memory state (both the projects list and the selected-project copy)
is returned unchanged — the write is attempted before any local mutation
and the error path mutates nothing. -/
theorem updateProjectStatus_failureLeavesState (projects : List Project)
    (selectedProject : Option Project) (projectId : Nat) (status : ProjectStatus) :
    updateProjectStatus false projects selectedProject projectId status
      = (projects, selectedProject) :=
  rfl

/-! ## C6: the free-choice selector path validates nothing -/

/-- C6: for every project `p` in the list (whatever its current status) and
every requested status `t` among the six states, the direct status-set
path assigns `t` to the project with no validation against the advance
graph. -/
theorem updateProjectStatus_setsAnyStatus (projects : List Project)
    (selectedProject : Option Project) (projectId : Nat) (t : ProjectStatus)
    (p : Project) (hp : p ∈ projects) (hid : p.id = projectId) :
    { p with status := t, lastActivity := "Status updated" }
      ∈ (updateProjectStatus true projects selectedProject projectId t).1 := by
  have h : (updateProjectStatus true projects selectedProject projectId t).1
      = projects.map fun q =>
          if q.id = projectId then
            { q with status := t, lastActivity := "Status updated" }
          else q := rfl
  rw [h]
  exact List.mem_map.mpr ⟨p, hp, by rw [if_pos hid]⟩

/-- Witness for C6: the draft project `exProjA` can be set directly to the
terminal state. -/
theorem updateProjectStatus_setsAnyStatus_witness :
    { exProjA with status := ProjectStatus.final_delivered, lastActivity := "Status updated" }
      ∈ (updateProjectStatus true [exProjA] none 1 ProjectStatus.final_delivered).1 :=
  updateProjectStatus_setsAnyStatus [exProjA] none 1 ProjectStatus.final_delivered
    exProjA (by decide) (by decide)

/-! ## C7: project creation validation and initial state -/

/-- C7: project creation with any of client, title, due date or description
empty is rejected locally with no store call and no list change; with all
four present the insert is attempted and, when the store returns a row,
the created project is appended with status `draft` and version `1`. -/
theorem saveNewProject_validation (np : NewProjectForm) (insertedId : Option Nat)
    (projects : List Project) :
    ((np.client = "" ∨ np.title = "" ∨ np.dueDate = "" ∨ np.description = "") →
      saveNewProject np insertedId projects = (false, projects)) ∧
    (np.client ≠ "" → np.title ≠ "" → np.dueDate ≠ "" → np.description ≠ "" →
      ∀ newId, insertedId = some newId →
        ∃ p, saveNewProject np insertedId projects = (true, projects ++ [p]) ∧
          p.status = ProjectStatus.draft ∧ p.version = 1 ∧ p.id = newId) := by
  constructor
  · intro h
    unfold saveNewProject
    rw [if_pos h]
  · intro h1 h2 h3 h4 newId hins
    subst hins
    unfold saveNewProject
    rw [if_neg]
    · exact ⟨_, rfl, rfl, rfl, rfl⟩
    · push_neg
      exact ⟨h1, h2, h3, h4⟩

/-- Witness for C7: the filled form is persisted and appended as a draft
project with version 1, and the form with an empty title is rejected with
the list unchanged. -/
theorem saveNewProject_validation_witness :
    (∃ p, saveNewProject exForm (some 5) [exProjA] = (true, [exProjA] ++ [p]) ∧
      p.status = ProjectStatus.draft ∧ p.version = 1 ∧ p.id = 5) ∧
    saveNewProject exFormNoTitle (some 5) [exProjA] = (false, [exProjA]) :=
  ⟨(saveNewProject_validation exForm (some 5) [exProjA]).2
      (by decide) (by decide) (by decide) (by decide) 5 rfl,
    (saveNewProject_validation exFormNoTitle (some 5) [exProjA]).1 (by decide)⟩

/-! ## C9: post deletion on a failed store delete -/

/-- Counterexample to C9 as stated: with the store delete failing
(`dbOk = false`), the in-memory posted-content list does not remain
unchanged — the post is removed anyway. -/
theorem deletePost_dbFailure_cex :
    deletePost true false [exPost1] 1 = [] ∧
    deletePost true false [exPost1] 1 ≠ [exPost1] := by
  decide

/-- C9 amended: when the store delete of a single post fails, the post is
nonetheless removed from the in-memory list — the local removal does not
depend on the store outcome (the failure path coincides with the success
path), the targeted post is gone, and every other post is kept. -/
theorem deletePost_removalUnconditional (posts : List PostedContent) (postId : Nat) :
    deletePost true false posts postId = deletePost true true posts postId ∧
    (∀ p ∈ deletePost true false posts postId, p.id ≠ postId) ∧
    (∀ p ∈ posts, p.id ≠ postId → p ∈ deletePost true false posts postId) := by
  refine ⟨rfl, ?_, ?_⟩
  · intro p hp
    have h := (List.mem_filter.mp hp).2
    simpa using h
  · intro p hp h
    exact List.mem_filter.mpr ⟨hp, by simpa using h⟩

/-- Witness for C9's amended claim: deleting post 1 while the store errors
still removes it and keeps post 2. -/
theorem deletePost_removalUnconditional_witness :
    exPost2 ∈ deletePost true false [exPost1, exPost2] 1 :=
  (deletePost_removalUnconditional [exPost1, exPost2] 1).2.2 exPost2
    (by decide) (by decide)

/-! ## C10: explicit file delete never touches the relational table -/

/-- C10: an explicit file delete removes the backing object from the
object store and the file from the in-memory project state, but issues no
delete against `project_files`: the relational rows are returned unchanged,
so the deleted file's row is still produced the next time the project's
files are loaded from the store. -/
theorem deleteFile_noRelationalDelete (projects : List Project)
    (selectedProject : Option Project) (db : List DbFileRecord) (s3 : List String)
    (s3Ok : Bool) (projectId : Nat) (fileId : String) :
    ((deleteFile projects selectedProject db s3 s3Ok projectId fileId).2.2.1 = db) ∧
    (∀ q ∈ (deleteFile projects selectedProject db s3 s3Ok projectId fileId).1,
      q.id = projectId → ∀ f ∈ q.files, f.id ≠ fileId) ∧
    (∀ p f, (projects.find? fun p' => decide (p'.id = projectId)) = some p →
      (p.files.find? fun f' => decide (f'.id = fileId)) = some f →
      f.s3Key ≠ "" → s3Ok = true →
      f.s3Key ∉ (deleteFile projects selectedProject db s3 s3Ok projectId fileId).2.2.2) ∧
    (∀ r ∈ db, r.projectId = projectId →
      dbRowToFile r ∈ loadFilesForProject
        (deleteFile projects selectedProject db s3 s3Ok projectId fileId).2.2.1 projectId) := by
  refine ⟨rfl, ?_, ?_, ?_⟩
  · intro q hq hqid f hf
    have hmap : (deleteFile projects selectedProject db s3 s3Ok projectId fileId).1
        = projects.map fun p =>
            if p.id = projectId then
              { p with
                files := p.files.filter fun f' => decide (f'.id ≠ fileId)
                lastActivity := "File deleted" }
            else p := rfl
    rw [hmap] at hq
    obtain ⟨p, hp, rfl⟩ := List.mem_map.mp hq
    by_cases hpid : p.id = projectId
    · rw [if_pos hpid] at hf
      have h := (List.mem_filter.mp hf).2
      simpa using h
    · rw [if_neg hpid] at hqid
      exact absurd hqid hpid
  · intro p f hp hf hkey hok
    subst hok
    have hs3 : (deleteFile projects selectedProject db s3 true projectId fileId).2.2.2
        = s3.filter fun k => decide (k ≠ f.s3Key) := by
      simp only [deleteFile, hp, hf, deleteFromS3, if_pos hkey, if_true]
    rw [hs3]
    intro hmem
    have h := (List.mem_filter.mp hmem).2
    simp at h
  · intro r hr hrid
    exact List.mem_map_of_mem dbRowToFile
      (List.mem_filter.mpr ⟨hr, by simpa using hrid⟩)

/-- Witness for C10: deleting `a.mp4` (id `x`) from project 1 removes the
object `k1` from the store and the file from memory, yet its row is still
loaded for project 1 afterwards. -/
theorem deleteFile_noRelationalDelete_witness :
    ((deleteFile [exProjA] none [exRec1] ["k1", "k2"] true 1 "x").2.2.1 = [exRec1]) ∧
    "k1" ∉ (deleteFile [exProjA] none [exRec1] ["k1", "k2"] true 1 "x").2.2.2 ∧
    dbRowToFile exRec1 ∈ loadFilesForProject
      (deleteFile [exProjA] none [exRec1] ["k1", "k2"] true 1 "x").2.2.1 1 :=
  ⟨(deleteFile_noRelationalDelete [exProjA] none [exRec1] ["k1", "k2"] true 1 "x").1,
    (deleteFile_noRelationalDelete [exProjA] none [exRec1] ["k1", "k2"] true 1 "x").2.2.1
      exProjA exFile10 (by decide) (by decide) (by decide) rfl,
    (deleteFile_noRelationalDelete [exProjA] none [exRec1] ["k1", "k2"] true 1 "x").2.2.2
      exRec1 (by decide) (by decide)⟩

/-! ## C8: version resolution does not touch unrelated files or projects -/

/-- C8: applying the upload's state update for a new file leaves, position
by position, every project with a different id unchanged, keeps every file
whose name differs from the new file's name exactly as it was inside the
target project, and the persisted side only appends — every pre-existing
`project_files` row is still present unchanged. -/
theorem applyUpload_frame (projects : List Project) (projectId : Nat)
    (nf : ProjectFile) :
    List.Forall₂
      (fun q q' =>
        (q.id ≠ projectId → q' = q) ∧
        (∀ f ∈ q.files, f.name ≠ nf.name → f ∈ q'.files))
      projects (applyUploadState projects projectId [nf]) ∧
    (∀ (db : List DbFileRecord) (assignedId : Nat) (now : String),
      ∀ r ∈ db, r ∈ saveFileToSupabase db assignedId projectId now nf) := by
  constructor
  · rw [applyUploadState, List.forall₂_map_right_iff, List.forall₂_same]
    intro p _
    constructor
    · intro h
      rw [if_neg h]
    · intro f hf hname
      by_cases hpid : p.id = projectId
      · rw [if_pos hpid]
        refine List.mem_append_left _ (List.mem_map.mpr ⟨f, hf, ?_⟩)
        have hcond : ([nf].any fun nf' => decide (nf'.name = f.name)) = false := by
          simp [Ne.symm hname]
        rw [hcond]
        rfl
      · rw [if_neg hpid]
        exact hf
  · intro db assignedId now r hr
    exact List.mem_append_left _ hr

/-- Witness for C8: uploading a fresh `a.mp4` into project 1 keeps `b.png`
exactly as it was inside project 1, leaves project 2 untouched, and keeps
the pre-existing persisted row. -/
theorem applyUpload_frame_witness :
    exFileOther ∈
      ((applyUploadState [exProjA, exProjB] 1 [exFile20]).headD exProjA).files ∧
    (applyUploadState [exProjA, exProjB] 1 [exFile20]).getLastD exProjA = exProjB ∧
    exRec1 ∈ saveFileToSupabase [exRec1] 2 1 "Tue" exFile20 := by
  have h := applyUpload_frame [exProjA, exProjB] 1 exFile20
  have h1 := List.forall₂_cons.mp h.1
  have h2 := List.forall₂_cons.mp h1.2
  exact ⟨h1.1.2 exFileOther (by decide) (by decide),
    h2.1.1 (by decide),
    h.2 [exRec1] 2 "Tue" exRec1 (by decide)⟩

/-! ## C4: the previous-version link -/

/-- C4: the `previousVersionId` given to the new file by a version
resolution is the id of the existing same-named file flagged `isLatest`
(when that flag singles out one file); when no same-named file exists or
none of them is flagged, it is `none`. -/
theorem mkNewFile_previousVersionId (existingFiles : List ProjectFile)
    (fileId fileName : String) (size : Nat) (ftype now url s3Key uploadedBy : String) :
    ((∀ f ∈ existingFiles, f.name = fileName → f.isLatest = false) →
      (mkNewFile existingFiles fileId fileName size ftype now url s3Key
        uploadedBy).previousVersionId = none) ∧
    (∀ g ∈ existingFiles, g.name = fileName → g.isLatest = true →
      (∀ g2 ∈ existingFiles, g2.name = fileName → g2.isLatest = true → g2 = g) →
      (mkNewFile existingFiles fileId fileName size ftype now url s3Key
        uploadedBy).previousVersionId = some g.id) := by
  have hbase : (mkNewFile existingFiles fileId fileName size ftype now url s3Key
      uploadedBy).previousVersionId
      = (getLatestFileVersion existingFiles fileName).map fun f => f.id := rfl
  constructor
  · intro h
    rw [hbase]
    have hnone : getLatestFileVersion existingFiles fileName = none := by
      rw [getLatestFileVersion, List.find?_eq_none]
      intro x hx
      have hmem := List.mem_filter.mp hx
      have hname : x.name = fileName := by simpa using hmem.2
      simp [h x hmem.1 hname]
    rw [hnone]
    rfl
  · intro g hg hname hlatest huniq
    rw [hbase]
    have hginf : g ∈ existingFiles.filter fun f => decide (f.name = fileName) :=
      List.mem_filter.mpr ⟨hg, by simpa using hname⟩
    rcases hw : (existingFiles.filter fun f => decide (f.name = fileName)).find?
        fun f => f.isLatest with _ | w
    · exfalso
      have := List.find?_eq_none.mp hw g hginf
      exact this hlatest
    · have hw1 : w.isLatest = true := List.find?_some hw
      have hw2 := List.mem_filter.mp (List.mem_of_find?_eq_some hw)
      have hwname : w.name = fileName := by simpa using hw2.2
      have hwg : w = g := huniq w hw2.1 hwname hw1
      rw [getLatestFileVersion, hw, hwg]
      rfl

/-- Witness for C4: with a single latest `a.mp4` of id `z` present, the
new file's `previousVersionId` is `some "z"`. -/
theorem mkNewFile_previousVersionId_witness :
    (mkNewFile [exFile19, exFile20, exFileOther] "fid" "a.mp4" 7 "video/mp4" "Tue"
      "u2" "k3" "kd").previousVersionId = some "z" :=
  (mkNewFile_previousVersionId [exFile19, exFile20, exFileOther] "fid" "a.mp4" 7
      "video/mp4" "Tue" "u2" "k3" "kd").2 exFile20 (by decide) (by decide) (by decide)
    (by decide)

/-! ## C1: the single-latest invariant after an upload -/

/-- After the upload state update with a new latest file `nf`, the target
project holds exactly one latest file of `nf`'s name. -/
theorem applyUploadState_latestCount (projects : List Project) (projectId : Nat)
    (nf : ProjectFile) (hnf : nf.isLatest = true) :
    ∀ q ∈ applyUploadState projects projectId [nf], q.id = projectId →
      latestFileCount q.files nf.name = 1 := by
  intro q hq hqid
  rw [applyUploadState] at hq
  obtain ⟨p, hp, rfl⟩ := List.mem_map.mp hq
  by_cases hpid : p.id = projectId
  · rw [if_pos hpid]
    show ((p.files.map fun f =>
        if ([nf].any fun nf' => decide (nf'.name = f.name)) then
          { f with isLatest := false }
        else f) ++ [nf]).countP (fun f => decide (f.name = nf.name ∧ f.isLatest = true)) = 1
    rw [List.countP_append]
    have h1 : ([nf].countP fun f => decide (f.name = nf.name ∧ f.isLatest = true)) = 1 := by
      simp [hnf]
    have h0 : ((p.files.map fun f =>
        if ([nf].any fun nf' => decide (nf'.name = f.name)) then
          { f with isLatest := false }
        else f).countP fun f => decide (f.name = nf.name ∧ f.isLatest = true)) = 0 := by
      rw [List.countP_eq_zero]
      intro g hg
      obtain ⟨f, hf, rfl⟩ := List.mem_map.mp hg
      by_cases hn : nf.name = f.name
      · simp [hn]
      · simp [hn, Ne.symm hn]
    rw [h0, h1]
  · rw [if_neg hpid] at hqid
    exact absurd hqid hpid

/-- Counterexample to C1 as stated: uploading `a.mp4` to project 1, whose
row at version `1.0` is already persisted with `is_latest = true`, leaves
TWO persisted `project_files` rows of that name flagged latest — the
upload only inserts; no update flips the old row's flag. -/
theorem upload_persistedLatest_cex :
    latestDbCount exUpload.2.2 1 "a.mp4" = 2 ∧
    latestDbCount exUpload.2.2 1 "a.mp4" ≠ 1 := by
  decide

/-- C1 amended: after a single-file upload of name `f` to project `p`,
exactly one file named `f` in `p` has `isLatest = true` in the in-memory
projects list; the persisted `project_files` rows, however, are only
appended to — the new row is inserted with `is_latest = true` and every
previously persisted row keeps its flag unchanged. -/
theorem uploadSingleFile_latestInvariant (projects : List Project)
    (selectedProject : Option Project) (db : List DbFileRecord) (projectId : Nat)
    (fileId fileName : String) (size : Nat) (ftype now url uploadedBy : String)
    (assignedDbId : Nat) :
    (∀ q ∈ (uploadSingleFile projects selectedProject db projectId fileId fileName
        size ftype now url uploadedBy assignedDbId).1,
      q.id = projectId → latestFileCount q.files fileName = 1) ∧
    (∃ rec, (uploadSingleFile projects selectedProject db projectId fileId fileName
        size ftype now url uploadedBy assignedDbId).2.2 = db ++ [rec] ∧
      rec.name = fileName ∧ rec.isLatest = true) := by
  constructor
  · intro q hq hqid
    exact applyUploadState_latestCount projects projectId
      (mkNewFile
        (match projects.find? fun p => decide (p.id = projectId) with
         | some p => p.files
         | none => []) fileId fileName size ftype now url
        ("projects/" ++ toString projectId ++ "/" ++ fileId ++ "-" ++ fileName)
        uploadedBy)
      rfl q hq hqid
  · exact ⟨_, rfl, rfl, rfl⟩

/-- Witness for C1's amended claim: after the concrete upload, project 1
in the projects list holds exactly one latest `a.mp4`. -/
theorem uploadSingleFile_latestInvariant_witness :
    latestFileCount ((exUpload.1.headD exProjA).files) "a.mp4" = 1 :=
  (uploadSingleFile_latestInvariant [exProjA, exProjB] none [exRec1] 1 "fid"
      "a.mp4" 7 "video/mp4" "Tue" "u2" "kd" 2).1
    (exUpload.1.headD exProjA) (by decide) (by decide)

/-! ## C3: the version resolver picks the numeric maximum -/

/-- The comparator relation is reflexive. -/
theorem versionLe_refl (a : String) : versionLe a a = true := by
  unfold versionLe
  rcases h : parseMajorMinor a with _ | ⟨M, m⟩
  · simp
  · simp

/-- On parsed versions the comparator agrees with the numeric
`(major, minor)` order, reversed (the sort is descending). -/
theorem versionLe_iff {a b : String} {p q : Nat × Nat}
    (ha : parseMajorMinor a = some p) (hb : parseMajorMinor b = some q) :
    versionLe a b = true ↔ pairLe q p := by
  obtain ⟨aM, am⟩ := p
  obtain ⟨bM, bm⟩ := q
  unfold versionLe pairLe
  rw [ha, hb]
  by_cases hM : aM = bM
  · subst hM
    simp
  · simp [hM]
    omega

/-- The comparator is total. -/
theorem versionLe_total (a b : String) :
    versionLe a b = true ∨ versionLe b a = true := by
  rcases h1 : parseMajorMinor a with _ | p
  · right
    unfold versionLe
    rw [h1]
    rcases h2 : parseMajorMinor b with _ | q <;> rfl
  · rcases h2 : parseMajorMinor b with _ | q
    · left
      unfold versionLe
      rw [h1, h2]
    · rw [versionLe_iff h1 h2, versionLe_iff h2 h1]
      unfold pairLe
      omega

/-- The comparator is transitive on parsed versions. -/
theorem versionLe_trans {a b c : String} {p q r : Nat × Nat}
    (ha : parseMajorMinor a = some p) (hb : parseMajorMinor b = some q)
    (hc : parseMajorMinor c = some r)
    (hab : versionLe a b = true) (hbc : versionLe b c = true) :
    versionLe a c = true := by
  rw [versionLe_iff ha hb] at hab
  rw [versionLe_iff hb hc] at hbc
  rw [versionLe_iff ha hc]
  unfold pairLe at hab hbc ⊢
  omega

/-- On a non-empty list of parseable versions, the comparator sort starts
with an element of the list that the comparator places no later than every
element. -/
theorem insertionSort_head_max (l : List String)
    (hparse : ∀ s ∈ l, (parseMajorMinor s).isSome) (hne : l ≠ []) :
    ∃ v t, List.insertionSort (fun a b => versionLe a b = true) l = v :: t ∧
      v ∈ l ∧ ∀ s ∈ l, versionLe v s = true := by
  induction l with
  | nil => exact absurd rfl hne
  | cons x xs ih =>
    rcases eq_or_ne xs [] with hxs | hxs
    · subst hxs
      refine ⟨x, [], by simp [List.insertionSort, List.orderedInsert], by simp, ?_⟩
      intro s hs
      simp at hs
      subst hs
      exact versionLe_refl s
    · obtain ⟨v, t, hsort, hv, hmax⟩ :=
        ih (fun s hs => hparse s (List.mem_cons_of_mem x hs)) hxs
      have hsort2 : List.insertionSort (fun a b => versionLe a b = true) (x :: xs)
          = List.orderedInsert (fun a b => versionLe a b = true) x (v :: t) := by
        simp only [List.insertionSort]
        rw [hsort]
      obtain ⟨p, hpxe⟩ := Option.isSome_iff_exists.mp (hparse x (List.mem_cons_self x xs))
      obtain ⟨pv, hpve⟩ :=
        Option.isSome_iff_exists.mp (hparse v (List.mem_cons_of_mem x hv))
      by_cases hxv : versionLe x v = true
      · refine ⟨x, v :: t, ?_, List.mem_cons_self x xs, ?_⟩
        · rw [hsort2]
          simp only [List.orderedInsert]
          rw [if_pos hxv]
        · intro s hs
          rcases List.mem_cons.mp hs with rfl | hs2
          · exact versionLe_refl s
          · obtain ⟨ps, hpse⟩ :=
              Option.isSome_iff_exists.mp (hparse s (List.mem_cons_of_mem x hs2))
            exact versionLe_trans hpxe hpve hpse hxv (hmax s hs2)
      · have hvx : versionLe v x = true := (versionLe_total x v).resolve_left hxv
        refine ⟨v, List.orderedInsert (fun a b => versionLe a b = true) x t, ?_,
          List.mem_cons_of_mem x hv, ?_⟩
        · rw [hsort2]
          simp only [List.orderedInsert]
          rw [if_neg hxv]
        · intro s hs
          rcases List.mem_cons.mp hs with rfl | hs2
          · exact hvx
          · exact hmax s hs2

/-- C3: the resolver returns `"1.0"` when no existing file has the exact
name; otherwise, when every matching version string is a well-formed
`major.minor` pair, it picks the numerically greatest `(major, minor)`
pair — major first, minor as tiebreak, not string comparison — and
returns `major.(minor+1)`: the major component is never bumped. -/
theorem getNextVersion_resolvesNumericMax (files : List ProjectFile)
    (fileName : String)
    (hwf : ∀ s ∈ matchingVersions files fileName, (parseMajorMinor s).isSome) :
    (matchingVersions files fileName = [] → getNextVersion files fileName = "1.0") ∧
    (∀ M m,
      (∃ s ∈ matchingVersions files fileName, parseMajorMinor s = some (M, m)) →
      (∀ s ∈ matchingVersions files fileName, ∀ p, parseMajorMinor s = some p →
        pairLe p (M, m)) →
      getNextVersion files fileName = toString M ++ "." ++ toString (m + 1)) := by
  constructor
  · intro h
    simp only [getNextVersion]
    rw [h]
    rfl
  · intro M m hex hmax
    obtain ⟨s0, hs0, hps0⟩ := hex
    have hne : matchingVersions files fileName ≠ [] := by
      intro h
      rw [h] at hs0
      exact absurd hs0 (List.not_mem_nil s0)
    obtain ⟨v, t, hsort, hv, hvmax⟩ := insertionSort_head_max _ hwf hne
    obtain ⟨⟨vM, vm⟩, hpve⟩ := Option.isSome_iff_exists.mp (hwf v hv)
    have h1 : pairLe (vM, vm) (M, m) := hmax v hv _ hpve
    have h2 : pairLe (M, m) (vM, vm) := (versionLe_iff hpve hps0).mp (hvmax s0 hs0)
    have hMm : vM = M ∧ vm = m := by
      simp only [pairLe] at h1 h2
      constructor <;> omega
    obtain ⟨rfl, rfl⟩ := hMm
    simp only [getNextVersion]
    rw [hsort]
    show (match parseMajorMinor v with
      | some (major, minor) => toString major ++ "." ++ toString (minor + 1)
      | none => "NaN.NaN") = toString vM ++ "." ++ toString (vm + 1)
    rw [hpve]

/-- Witness for C3: with `a.mp4` present at versions `1.9` and `2.0`, the
resolver picks `2.0` numerically (not the string maximum) and returns
`2.1`. -/
theorem getNextVersion_resolvesNumericMax_witness :
    getNextVersion [exFile19, exFile20] "a.mp4" = "2.1" := by
  have hmax : ∀ s ∈ matchingVersions [exFile19, exFile20] "a.mp4",
      ∀ p, parseMajorMinor s = some p → pairLe p (2, 0) := by
    have hm : matchingVersions [exFile19, exFile20] "a.mp4" = ["1.9", "2.0"] := by
      decide
    rw [hm]
    intro s hs p hp
    rcases List.mem_cons.mp hs with rfl | hs2
    · have h19 : parseMajorMinor "1.9" = some (1, 9) := by decide
      rw [h19] at hp
      cases hp
      decide
    · have hs3 : s = "2.0" := by simpa using hs2
      subst hs3
      have h20 : parseMajorMinor "2.0" = some (2, 0) := by decide
      rw [h20] at hp
      cases hp
      decide
  have h := (getNextVersion_resolvesNumericMax [exFile19, exFile20] "a.mp4"
      (by decide)).2 2 0 (by decide) hmax
  have e : toString 2 ++ "." ++ toString (0 + 1) = "2.1" := by decide
  rw [e] at h
  exact h

end ContentHub
